import Mathlib

/-!
Verification of the episode transformation tools of the xr_teleoperate
repository (src/teleop/utils/cut_episode.py, filter_dataset.py,
filter_dataset2.py).

The Python scripts are shallowly embedded: JSON metadata becomes typed
records (a frame's colors/depths/audios/states/actions/tactiles), the
filesystem becomes an explicit state value (a list of directory paths and
a list of path/content pairs), and each script's main body becomes a pure
function from parsed arguments and a filesystem to a run outcome (final
filesystem, emitted warning lines, and an optional abort reason).

Modelling conventions, stated once:
* Paths are plain strings joined with "/"; expanduser/resolve are treated
  as the identity (the scripts only compare and concatenate paths).
* Python dicts from JSON become association lists with (unique) string
  keys; a Python set of strings becomes a deduplicated list.
* An uncaught Python exception and a sys.exit(2) both surface as
  RunOut.exit = some tag, with a distinct tag per raise site.
* Messages printed to stderr via eprint("WARNING...") are collected in
  RunOut.warnings; plain progress prints and error texts accompanying an
  abort are not modelled beyond the abort tag.
* --dry_run is not modelled (taken as false throughout).
-/

/-! ## Characters, digits and path strings

String library functions that walk UTF-8 byte positions do not reduce
well in the kernel, so the few string manipulations the scripts perform
are defined structurally on the underlying character lists. -/

/-- Split a character list at every '/' (models str.split("/") semantics
used to reason about path components). -/
def splitSlash : List Char → List (List Char)
  | [] => [[]]
  | c :: cs =>
    let r := splitSlash cs
    if c = '/' then [] :: r
    else
      match r with
      | [] => [[c]]
      | h :: t => (c :: h) :: t

/-- Join components with '/' (inverse of splitSlash). -/
def joinSlash : List (List Char) → List Char
  | [] => []
  | [x] => x
  | x :: xs => x ++ '/' :: joinSlash xs

/-- Path join, `a / b` on pathlib paths. -/
def pjoin (a b : String) : String := a ++ "/" ++ b

/-- All ancestor paths of p, shortest first, ending with p itself
(the directories `mkdir(parents=True)` brings into existence). -/
def ancestorPaths (p : String) : List String :=
  let parts := splitSlash p.data
  (List.range parts.length).map (fun i => ⟨joinSlash (parts.take (i + 1))⟩)

/-- `Path(p).parent` for a relative-style path string. -/
def parentOf (p : String) : String :=
  ⟨joinSlash ((splitSlash p.data).dropLast)⟩

/-- `Path(p).name`: the last path component. -/
def baseName (p : String) : String :=
  ⟨(splitSlash p.data).getLastD []⟩

/-- Whether q lies at or strictly below directory root (used to model
shutil.rmtree and to delimit where a materializer writes). -/
def underPath (root q : String) : Bool :=
  q = root || (root.data ++ ['/']).isPrefixOf q.data

/-- p is a direct child of dir: returns the child's name. -/
def childName (dir p : String) : Option String :=
  let pre := dir.data ++ ['/']
  if pre.isPrefixOf p.data then
    let rest := p.data.drop pre.length
    if rest ≠ [] ∧ ¬ rest.contains '/' then some ⟨rest⟩ else none
  else none

/-- Decimal digits of n, most significant first (fuelled so that it
computes by structural recursion; fuel n+1 always suffices). -/
def natDigitsAux : Nat → Nat → List Char
  | 0, _ => []
  | fuel + 1, n =>
    if n < 10 then [Nat.digitChar n]
    else natDigitsAux fuel (n / 10) ++ [Nat.digitChar (n % 10)]

/-- Python f-string "{n:04d}" for a natural number: decimal, left-padded
with '0' to at least four characters. -/
def pad4 (n : Nat) : String :=
  let s := natDigitsAux (n + 1) n
  ⟨List.replicate (4 - s.length) '0' ++ s⟩

/-- Episode folder name, f"episode_{i:04d}" (cut_episode.py lines 56-57).
Negative indices are not representable here; the scripts only ever form
names from non-negative indices that also match EP_RE on re-scan. -/
def epName (i : Nat) : String := "episode_" ++ pad4 i

/-- Value of a digit string, as int() computes it on a \d+ match. -/
def digitsVal (l : List Char) : Nat :=
  l.foldl (fun acc c => acc * 10 + (c.toNat - '0'.toNat)) 0

/-- EP_RE = re.compile(r"^episode_(\d+)$"): match a folder name and
extract the numeric index (filter_dataset2.py line 21). -/
def parseEpName (name : String) : Option Nat :=
  let pre := "episode_".data
  if pre.isPrefixOf name.data then
    let ds := name.data.drop pre.length
    if ds ≠ [] ∧ ds.all Char.isDigit then some (digitsVal ds) else none
  else none

/-- Lexicographic comparison of character lists by code point, the order
Python's sorted() uses on strings. -/
def charListLe : List Char → List Char → Bool
  | [], _ => true
  | _ :: _, [] => false
  | a :: as, b :: bs =>
    if a < b then true
    else if b < a then false
    else charListLe as bs

/-- String order used by sorted() on path strings. -/
def strLe (a b : String) : Bool := charListLe a.data b.data

/-- Insert a into an ascending list (stable: a goes before equals). -/
def insertLe {α : Type} (le : α → α → Bool) (a : α) : List α → List α
  | [] => [a]
  | b :: bs => if le a b then a :: b :: bs else b :: insertLe le a bs

/-- Insertion sort; models Python's ascending stable sort. -/
def sortLe {α : Type} (le : α → α → Bool) : List α → List α
  | [] => []
  | a :: as => insertLe le a (sortLe le as)

/-! ## Frame record model

One entry of data.json["data"] (spec §3, §6). Values the transforms never
interpret (joint records with qpos vectors, tactile data) are carried as
opaque string payloads. -/

/-- The "audios" field: null, a single path string, or a mapping from
stream key to path (filter_dataset2.py lines 64-70 accept all three). -/
inductive AudiosField where
  | null : AudiosField
  | path : String → AudiosField
  | table : List (String × String) → AudiosField
deriving DecidableEq

/-- One frame of an episode (one element of data.json["data"]). -/
structure Step where
  idx : Int
  colors : List (String × String)
  depths : List (String × String)
  audios : AudiosField
  states : List (String × String)
  actions : List (String × String)
  tactiles : List (String × String)
deriving DecidableEq

/-- The info block: joint-name and tactile-name tables per group. -/
structure Info where
  joint_names : List (String × List String)
  tactile_names : List (String × List String)
deriving DecidableEq

/-- The whole metadata document data.json. -/
structure DataJson where
  info : Info
  data : List Step
deriving DecidableEq

/-! ## Transform: Cut (cut_episode.py) -/

/-- cut_episode.py lines 68-73: start = max(0, args.start);
end = min(len(frames), args.end); error when end <= start; otherwise
the retained frames are the Python slice frames[start:end]. -/
def cutSlice (frames : List Step) (s e : Int) : Except String (List Step) :=
  let start := max 0 s
  let stop := min (frames.length : Int) e
  if stop ≤ start then .error "InvalidRange"
  else .ok (((frames.drop start.toNat).take (stop - start).toNat))

/-- cut_episode.py lines 92-94: rewrite idx to 0..N-1 in slice order. -/
def reindexSteps (fs : List Step) : List Step :=
  fs.enum.map (fun p => { p.2 with idx := (p.1 : Int) })

/-- The reindex decision of cut_episode.py line 92: reindex unless
--keep-idx was given. -/
def applyReindex (keepIdx : Bool) (cut : List Step) : List Step :=
  if keepIdx then cut else reindexSteps cut

/-! ## Transform: Filter (filter_dataset2.py) -/

/-- filter_dataset2.py line 189: keep only the colors entries whose key
is not in the drop set. -/
def dropCamerasStep (drop : List String) (s : Step) : Step :=
  { s with colors := s.colors.filter (fun kv => ¬ drop.contains kv.1) }

/-- filter_dataset2.py lines 32-37 (drop_group_in_step): pop the group
from both states and actions; popping an absent key is a no-op. -/
def drop_group_in_step (group : String) (s : Step) : Step :=
  { s with
    states := s.states.filter (fun kv => ¬ (kv.1 = group)),
    actions := s.actions.filter (fun kv => ¬ (kv.1 = group)) }

/-- filter_dataset2.py lines 196-197: drop every requested group from
one step, iterating the drop set. -/
def dropGroupsStep (groups : List String) (s : Step) : Step :=
  groups.foldl (fun acc g => drop_group_in_step g acc) s

/-- filter_dataset2.py lines 199-216: pop each dropped group from
info.joint_names and info.tactile_names (the `if group in` guard before
pop(group, None) is redundant and folded in). -/
def dropGroupsInfo (groups : List String) (info : Info) : Info :=
  { joint_names :=
      groups.foldl (fun jn g => jn.filter (fun kv => ¬ (kv.1 = g))) info.joint_names,
    tactile_names :=
      groups.foldl (fun tn g => tn.filter (fun kv => ¬ (kv.1 = g))) info.tactile_names }

/-- The whole joint-group filter: every step plus the info tables
(filter_dataset2.py lines 191-216). -/
def filterJointGroups (groups : List String) (d : DataJson) : DataJson :=
  { info := dropGroupsInfo groups d.info,
    data := d.data.map (dropGroupsStep groups) }

/-- Non-empty values of an asset mapping, in order
(`if isinstance(rel, str) and rel` / `if not rel: continue`). -/
def relsOfAssoc (m : List (String × String)) : List String :=
  (m.map Prod.snd).filter (fun r => ¬ (r = ""))

/-- Referenced paths contributed by the audios field in
collect_referenced_files (filter_dataset2.py lines 64-70). -/
def audioRefs : AudiosField → List String
  | .null => []
  | .path p => if p = "" then [] else [p]
  | .table m => relsOfAssoc m

/-- Paths one step contributes to the reference set
(filter_dataset2.py lines 53-70). -/
def stepRefs (s : Step) : List String :=
  relsOfAssoc s.colors ++ relsOfAssoc s.depths ++ audioRefs s.audios

/-- collect_referenced_files (filter_dataset2.py lines 39-72): the set of
non-empty paths referenced by any step's colors, depths or audios;
the Python set is modelled as a deduplicated list. -/
def collect_referenced_files (d : DataJson) : List String :=
  (d.data.flatMap stepRefs).dedup

/-! ## Filesystem model

The scripts' effects are: creating directories (with parents), writing a
file (overwriting any previous content at that path), copying a file
(read then write), and removing a tree. A filesystem value is a list of
existing directories plus a list of regular files with their contents.
data.json contents are kept structured, every other file body is an
opaque blob. -/

/-- File contents: a parsed data.json document or opaque bytes. -/
inductive FileData where
  | json : DataJson → FileData
  | blob : String → FileData
deriving DecidableEq

/-- Filesystem state: existing directories and regular files. -/
structure FS where
  dirs : List String
  files : List (String × FileData)
deriving DecidableEq

/-- A directory exists at p. -/
def FS.hasDir (fs : FS) (p : String) : Bool := fs.dirs.contains p

/-- The content of the regular file at p, if any. -/
def FS.getFile (fs : FS) (p : String) : Option FileData :=
  (fs.files.find? (fun kv => kv.1 = p)).map Prod.snd

/-- A regular file exists at p. -/
def FS.hasFile (fs : FS) (p : String) : Bool := (fs.getFile p).isSome

/-- Path.exists(): a directory or a regular file occupies p. -/
def FS.pathExists (fs : FS) (p : String) : Bool := fs.hasDir p || fs.hasFile p

/-- Create one directory if absent (mkdir with exist_ok behaviour for a
single level). -/
def FS.mkdir1 (fs : FS) (p : String) : FS :=
  if fs.hasDir p then fs else { fs with dirs := fs.dirs ++ [p] }

/-- mkdir(parents=True, exist_ok=True): create p and all its ancestors. -/
def FS.mkdirParents (fs : FS) (p : String) : FS :=
  (ancestorPaths p).foldl FS.mkdir1 fs

/-- Write (or overwrite) the regular file at p. -/
def FS.write (fs : FS) (p : String) (c : FileData) : FS :=
  { fs with files := fs.files.filter (fun kv => ¬ (kv.1 = p)) ++ [(p, c)] }

/-- shutil.rmtree: remove p and everything below it. -/
def FS.rmtree (fs : FS) (root : String) : FS :=
  { dirs := fs.dirs.filter (fun p => ¬ underPath root p),
    files := fs.files.filter (fun kv => ¬ underPath root kv.1) }

/-- shutil.copytree(s, d): create d and replicate every directory and
file below s at the corresponding path below d. -/
def FS.copyTree (fs : FS) (s d : String) : FS :=
  let strip := fun (p : String) =>
    if (s.data ++ ['/']).isPrefixOf p.data then some (p.data.drop s.data.length) else none
  { dirs := fs.dirs ++ [d] ++
      fs.dirs.filterMap (fun p => (strip p).map (fun r => (⟨d.data ++ r⟩ : String))),
    files := fs.files ++
      fs.files.filterMap (fun kv =>
        (strip kv.1).map (fun r => ((⟨d.data ++ r⟩ : String), kv.2))) }

/-- Outcome of one script run: final filesystem, WARNING lines emitted on
stderr, and the abort reason if the run did not finish normally
(an uncaught exception or sys.exit(2), tagged by raise site). -/
structure RunOut where
  fs : FS
  warnings : List String
  exit : Option String
deriving DecidableEq

/-! ## cut_episode.py main -/

/-- Parsed command line of cut_episode.py (lines 45-53); --end is named
stop here because end is reserved. -/
structure CutArgs where
  taskDir : String
  episode : Nat
  start : Int
  stop : Int
  outEpisode : Nat
  keepIdx : Bool
deriving DecidableEq

/-- copy_rel_file (cut_episode.py lines 28-41): always create the
destination file's parent directories; if the source file is missing,
silently skip; otherwise copy the content. -/
def copy_rel_file (srcEp dstEp : String) (rel : String) (fs : FS) : FS :=
  let src := pjoin srcEp rel
  let dst := pjoin dstEp rel
  let fs1 := fs.mkdirParents (parentOf dst)
  match fs1.getFile src with
  | none => fs1
  | some c => fs1.write dst c

/-- One step of the copy loop of cut_episode.py lines 82-89: the colors
and depths sections, then audios. `fr.get("audios", {}) or {}` applied
to a non-empty string yields that string, and calling .items() on it
raises AttributeError; an empty string is falsy and becomes {}. -/
def copyStepRels (srcEp dstEp : String) (s : Step) (fs : FS) : FS × Option String :=
  let fs1 := (relsOfAssoc s.colors).foldl (fun acc rel => copy_rel_file srcEp dstEp rel acc) fs
  let fs2 := (relsOfAssoc s.depths).foldl (fun acc rel => copy_rel_file srcEp dstEp rel acc) fs1
  match s.audios with
  | .null => (fs2, none)
  | .path p => if p = "" then (fs2, none) else (fs2, some "AttributeError")
  | .table m =>
      ((relsOfAssoc m).foldl (fun acc rel => copy_rel_file srcEp dstEp rel acc) fs2, none)

/-- The whole asset-copy loop of cut_episode.py lines 82-89, stopping at
the first raised exception. -/
def copyAllRels (srcEp dstEp : String) : List Step → FS → FS × Option String
  | [], fs => (fs, none)
  | s :: rest, fs =>
    match copyStepRels srcEp dstEp s fs with
    | (fs1, some e) => (fs1, some e)
    | (fs1, none) => copyAllRels srcEp dstEp rest fs1

/-- main of cut_episode.py (lines 44-103), after argument parsing. -/
def runCut (a : CutArgs) (fs : FS) : RunOut :=
  let src_ep := pjoin a.taskDir (epName a.episode)
  let dst_ep := pjoin a.taskDir (epName a.outEpisode)
  let src_json := pjoin src_ep "data.json"
  -- lines 59-61: raise FileNotFoundError if data.json is absent
  match fs.getFile src_json with
  | none => ⟨fs, [], some "MissingMetadata"⟩
  | some (.blob _) => ⟨fs, [], some "JSONDecodeError"⟩
  | some (.json d) =>
    -- lines 64-66: empty frame list
    if d.data.isEmpty then ⟨fs, [], some "EmptyEpisode"⟩
    else
      -- lines 68-73: clamp and validate the range
      match cutSlice d.data a.start a.stop with
      | .error m => ⟨fs, [], some m⟩
      | .ok cut =>
        -- lines 76-79: create the episode folder and the three
        -- subfolders, all with exist_ok=True
        let fs1 := (((fs.mkdirParents dst_ep).mkdirParents
            (pjoin dst_ep "colors")).mkdirParents
            (pjoin dst_ep "depths")).mkdirParents (pjoin dst_ep "audios")
        -- lines 82-89: copy referenced assets
        match copyAllRels src_ep dst_ep cut fs1 with
        | (fs2, some e) => ⟨fs2, [], some e⟩
        | (fs2, none) =>
          -- lines 92-94: optional reindex; lines 97-99: write data.json
          let outDoc : DataJson := { d with data := applyReindex a.keepIdx cut }
          let fs3 := fs2.mkdirParents (parentOf (pjoin dst_ep "data.json"))
          ⟨fs3.write (pjoin dst_ep "data.json") (.json outDoc), [], none⟩

/-! ## filter_dataset2.py main -/

/-- Parsed command line of filter_dataset2.py (lines 76-99). The two
comma-separated drop sets arrive already split into string lists; --end
is endIdx (-1 means no upper limit); --dry_run is not modelled. -/
structure Filter2Args where
  src : String
  init : Int
  endIdx : Int
  suffix : String
  dstParent : Option String
  overwrite : Bool
  dropCameras : List String
  dropJointGroups : List String
deriving DecidableEq

/-- Destination root of filter_dataset2.py line 113-114 (and the same
computation in filter_dataset.py lines 46-47):
dst_parent / (src.name + suffix), with dst_parent defaulting to the
parent of src. -/
def dstOf (src : String) (dstParent : Option String) (suffix : String) : String :=
  pjoin (dstParent.getD (parentOf src)) (baseName src ++ suffix)

/-- Scan the immediate subdirectories of src for episode_\d+ folders and
return (index, folder name) pairs (filter_dataset2.py lines 131-139,
identical in filter_dataset.py lines 63-71). -/
def listEpisodes (fs : FS) (src : String) : List (Nat × String) :=
  fs.dirs.filterMap (fun p =>
    (childName src p).bind (fun n => (parseEpName n).map (fun i => (i, n))))

/-- episodes.sort(key=lambda t: t[0]) — ascending stable sort by index
(filter_dataset2.py line 140). -/
def sortByIdx (l : List (Nat × String)) : List (Nat × String) :=
  sortLe (fun a b => a.1 ≤ b.1) l

/-- filter_dataset2.py lines 142-143: an --end of -1 is replaced by
episodes[-1][0]; on an empty episode list the [-1] lookup raises
IndexError, modelled as none. -/
def resolveEnd (eps : List (Nat × String)) (e : Int) : Option Int :=
  if e = -1 then (eps.getLast?).map (fun t => (t.1 : Int)) else some e

/-- Camera then joint-group filtering of one loaded document
(filter_dataset2.py lines 182-216, including the emptiness guards on the
two drop sets). -/
def filterDoc (dropC dropG : List String) (dj : DataJson) : DataJson :=
  let dj1 :=
    if dropC.isEmpty then dj
    else { dj with data := dj.data.map (dropCamerasStep dropC) }
  if dropG.isEmpty then dj1 else filterJointGroups dropG dj1

/-- Root-level regular files of the source episode folder other than
data.json, with their contents (filter_dataset2.py lines 231-233). -/
def rootFiles (fs : FS) (dir : String) : List (String × FileData) :=
  fs.files.filterMap (fun kv =>
    (childName dir kv.1).bind (fun n =>
      if n = "data.json" then none else some (n, kv.2)))

/-- The asset-copy loop of filter_dataset2.py lines 240-247: for each
referenced path make the destination parent directories, warn and skip
when the source file is absent, copy otherwise. -/
def copyRefs (epPath outEp : String) : List String → FS → List String → FS × List String
  | [], fs, ws => (fs, ws)
  | rel :: rest, fs, ws =>
    let srcFile := pjoin epPath rel
    let dstFile := pjoin outEp rel
    let fs1 := fs.mkdirParents (parentOf dstFile)
    match fs1.getFile srcFile with
    | none =>
        copyRefs epPath outEp rest fs1
          (ws ++ ["WARNING: referenced file missing, skipping: " ++ srcFile])
    | some c => copyRefs epPath outEp rest (fs1.write dstFile c) ws

/-- Body of the per-episode loop of filter_dataset2.py lines 166-247 for
one selected episode folder. -/
def processEpisode (src dst : String) (dropC dropG : List String)
    (name : String) (fs : FS) (ws : List String) : RunOut :=
  let epPath := pjoin src name
  let outEp := pjoin dst name
  -- lines 169-172: missing data.json aborts the whole run
  match fs.getFile (pjoin epPath "data.json") with
  | none => ⟨fs, ws, some "MissingMetadata"⟩
  | some (.blob _) => ⟨fs, ws, some "JSONDecodeError"⟩
  | some (.json dj) =>
    -- lines 182-216: filter cameras and joint groups
    let dj2 := filterDoc dropC dropG dj
    -- line 219: collect references after filtering
    let refs := collect_referenced_files dj2
    -- line 228: out_ep.mkdir(parents=True, exist_ok=False)
    if fs.pathExists outEp then ⟨fs, ws, some "FileExistsError"⟩
    else
      let fs1 := fs.mkdirParents outEp
      -- lines 231-233: copy root-level files except data.json
      let fs2 := (rootFiles fs1 epPath).foldl
          (fun acc nc => acc.write (pjoin outEp nc.1) nc.2) fs1
      -- lines 236-237: write the filtered data.json
      let fs3 := fs2.write (pjoin outEp "data.json") (.json dj2)
      -- lines 240-247: copy referenced assets in sorted order
      let r := copyRefs epPath outEp (sortLe strLe refs) fs3 ws
      ⟨r.1, r.2, none⟩

/-- The episode loop of filter_dataset2.py line 166: process selected
episodes in order, stopping at the first abort. -/
def processSelected (src dst : String) (dropC dropG : List String) :
    List (Nat × String) → FS → List String → RunOut
  | [], fs, ws => ⟨fs, ws, none⟩
  | t :: rest, fs, ws =>
    let r := processEpisode src dst dropC dropG t.2 fs ws
    match r.exit with
    | some _ => r
    | none => processSelected src dst dropC dropG rest r.fs r.warnings

/-- The invalid-range test of filter_dataset2.py line 106. -/
def filter2RangeBad (a : Filter2Args) : Bool :=
  a.init < 0 || a.endIdx < -1 || (a.init > a.endIdx && a.endIdx ≠ -1)

/-- main of filter_dataset2.py (lines 75-250), after argument parsing. -/
def runFilter2 (a : Filter2Args) (fs : FS) : RunOut :=
  -- lines 101-104: --src must be an existing directory
  if ¬ fs.hasDir a.src then ⟨fs, [], some "SrcNotDir"⟩
  -- lines 106-108: range validation
  else if filter2RangeBad a then
    ⟨fs, [], some "InvalidEpisodeRange"⟩
  else
    let dst := dstOf a.src a.dstParent a.suffix
    -- lines 117-128: existing destination is deleted only with --overwrite
    if fs.pathExists dst && ¬ a.overwrite then ⟨fs, [], some "DestinationExists"⟩
    else
      let fs0 := if fs.pathExists dst then fs.rmtree dst else fs
      -- lines 131-140: scan and sort episode folders
      let eps := sortByIdx (listEpisodes fs0 a.src)
      -- lines 142-143: resolve --end -1
      match resolveEnd eps a.endIdx with
      | none => ⟨fs0, [], some "IndexError"⟩
      | some endV =>
        -- lines 146-149: select the inclusive index range
        let selected := eps.filter (fun t => a.init ≤ (t.1 : Int) && (t.1 : Int) ≤ endV)
        if selected.isEmpty then ⟨fs0, [], some "EmptyRange"⟩
        -- line 155: dst.mkdir(parents=True, exist_ok=False)
        else if fs0.pathExists dst then ⟨fs0, [], some "FileExistsError"⟩
        else processSelected a.src dst a.dropCameras a.dropJointGroups
            selected (fs0.mkdirParents dst) []

/-! ## filter_dataset.py main (Range-Copy) -/

/-- Parsed command line of filter_dataset.py (lines 27-35); --end is
required and has no -1 convention here. -/
structure FilterDSArgs where
  src : String
  init : Int
  endIdx : Int
  suffix : String
  dstParent : Option String
  overwrite : Bool
deriving DecidableEq

/-- The invalid-range test of filter_dataset.py line 42. -/
def filterDSRangeBad (a : FilterDSArgs) : Bool :=
  a.init < 0 || a.endIdx < 0 || a.init > a.endIdx

/-- main of filter_dataset.py (lines 26-99), after argument parsing. -/
def runFilterDS (a : FilterDSArgs) (fs : FS) : RunOut :=
  -- lines 37-40: --src must be an existing directory
  if ¬ fs.hasDir a.src then ⟨fs, [], some "SrcNotDir"⟩
  -- lines 42-44: range validation
  else if filterDSRangeBad a then
    ⟨fs, [], some "InvalidEpisodeRange"⟩
  else
    let dst := dstOf a.src a.dstParent a.suffix
    -- lines 50-60: existing destination is deleted only with --overwrite
    if fs.pathExists dst && ¬ a.overwrite then ⟨fs, [], some "DestinationExists"⟩
    else
      let fs0 := if fs.pathExists dst then fs.rmtree dst else fs
      -- lines 63-73: scan and sort episode folders
      let eps := sortByIdx (listEpisodes fs0 a.src)
      -- lines 76-79: select the inclusive index range
      let selected := eps.filter (fun t => a.init ≤ (t.1 : Int) && (t.1 : Int) ≤ a.endIdx)
      if selected.isEmpty then ⟨fs0, [], some "EmptyRange"⟩
      -- line 85: dst.mkdir(parents=True, exist_ok=False)
      else if fs0.pathExists dst then ⟨fs0, [], some "FileExistsError"⟩
      else
        let fs1 := fs0.mkdirParents dst
        -- lines 92-97: shutil.copytree each selected episode folder
        ⟨selected.foldl
          (fun acc t => acc.copyTree (pjoin a.src t.2) (pjoin dst t.2)) fs1, [], none⟩

/-! ## Reference values used by concrete witnesses and counterexamples -/

/-- A frame with no asset references. -/
def plainStep : Step :=
  { idx := 7, colors := [], depths := [], audios := .null,
    states := [("left_arm", "q0")], actions := [("left_arm", "a0")],
    tactiles := [("left_hand", "t0")] }

/-- A one-frame source document for cut runs. -/
def cutDoc1 : DataJson :=
  { info := { joint_names := [("left_arm", ["j0"])], tactile_names := [] },
    data := [plainStep] }

/-- A task tree where episode_0002, the destination of a cut, already
exists and holds a stale file. -/
def fsCut1 : FS :=
  { dirs := ["task", "task/episode_0001", "task/episode_0002"],
    files := [("task/episode_0001/data.json", .json cutDoc1),
              ("task/episode_0002/old.bin", .blob "stale")] }

/-- Cut episode 1 frames [0, 1) into episode 2. -/
def argsCut1 : CutArgs :=
  { taskDir := "task", episode := 1, start := 0, stop := 1,
    outEpisode := 2, keepIdx := false }

/-- A tree holding a source directory and an already existing
destination folder for the two filter scripts. -/
def fsDst : FS :=
  { dirs := ["data", "data/task", "data/task/episode_0000", "data/task_filtered"],
    files := [] }

/-- filter_dataset2 arguments whose destination data/task_filtered
already exists, without --overwrite. -/
def argsF2Dst : Filter2Args :=
  { src := "data/task", init := 0, endIdx := 5, suffix := "_filtered",
    dstParent := none, overwrite := false, dropCameras := [], dropJointGroups := [] }

/-- filter_dataset arguments with the same existing destination. -/
def argsDSDst : FilterDSArgs :=
  { src := "data/task", init := 0, endIdx := 5, suffix := "_filtered",
    dstParent := none, overwrite := false }

/-- A source tree whose single episode folder has no data.json. -/
def fsF4 : FS :=
  { dirs := ["task", "task/src", "task/src/episode_0000"], files := [] }

/-- filter_dataset2 arguments over fsF4; the destination resolves to
task/src_f, which does not exist beforehand. -/
def argsF4 : Filter2Args :=
  { src := "task/src", init := 0, endIdx := -1, suffix := "_f",
    dstParent := none, overwrite := false, dropCameras := [], dropJointGroups := [] }

/-- A task tree with no data.json for episode 0 at all. -/
def fsCutMM : FS := { dirs := ["task"], files := [] }

/-- Cut arguments pointing at the absent episode 0 of fsCutMM. -/
def argsCutMM : CutArgs :=
  { taskDir := "task", episode := 0, start := 0, stop := 1,
    outEpisode := 1, keepIdx := false }

/-- A frame referencing one color image. -/
def stepA : Step :=
  { idx := 0, colors := [("color_0", "colors/a.jpg")], depths := [],
    audios := .null, states := [], actions := [], tactiles := [] }

/-- Document whose only frame references colors/a.jpg. -/
def docA : DataJson :=
  { info := { joint_names := [], tactile_names := [] }, data := [stepA] }

/-- Task tree where the referenced colors/a.jpg is absent at source. -/
def fsA : FS :=
  { dirs := ["task", "task/episode_0001"],
    files := [("task/episode_0001/data.json", .json docA)] }

/-- Cut episode 1 (whose asset is missing) into episode 2. -/
def argsA : CutArgs :=
  { taskDir := "task", episode := 1, start := 0, stop := 1,
    outEpisode := 2, keepIdx := false }

/-- Document referencing one present and one absent color image. -/
def docB : DataJson :=
  { info := { joint_names := [], tactile_names := [] },
    data := [{ idx := 0,
               colors := [("color_0", "colors/p.jpg"), ("color_1", "colors/m.jpg")],
               depths := [], audios := .null, states := [], actions := [],
               tactiles := [] }] }

/-- Tree for a filter_dataset2 episode whose colors/p.jpg exists and
colors/m.jpg is missing at materialization time. -/
def fsB : FS :=
  { dirs := ["root", "root/src", "root/src/episode_0000"],
    files := [("root/src/episode_0000/data.json", .json docB),
              ("root/src/episode_0000/colors/p.jpg", .blob "P")] }

/-- An empty filesystem for the copy_rel_file silent-skip witness. -/
def fsEmpty : FS := { dirs := [], files := [] }

/-- Source tree with no episode_* folders at all. -/
def fsNoEp : FS := { dirs := ["src"], files := [] }

/-- filter_dataset2 arguments with --end -1 over the empty scan fsNoEp. -/
def argsNoEp : Filter2Args :=
  { src := "src", init := 0, endIdx := -1, suffix := "_x",
    dstParent := none, overwrite := false, dropCameras := [], dropJointGroups := [] }

/-- A concrete unsorted scan result. -/
def scanW : List (Nat × String) := [(3, "episode_0003"), (1, "episode_0001")]

/-- What the spec's clamping words describe, kept separate from the
code-derived cutSlice for comparison. Modelled from the spec:
"start is clamped to [0, len); end is clamped to [0, len]; the retained
slice is [start, end); fails with InvalidRange when the clamped
end <= start". -/
def cutSliceSpecClamp (frames : List Step) (s e : Int) : Except String (List Step) :=
  let start := min (max 0 s) ((frames.length : Int) - 1)
  let stop := min (max 0 e) (frames.length : Int)
  if stop ≤ start then .error "InvalidRange"
  else .ok ((frames.drop start.toNat).take (stop - start).toNat)

/-- C2 counterexample: on a one-frame episode with start=1, end=1, the
spec's clamping (start into [0,len)) would retain the last frame, but
the code only lower-clamps start, so start stays 1 and the run fails
with InvalidRange. -/
theorem cutSlice_clamp_differs_from_spec :
    cutSliceSpecClamp [plainStep] 1 1 = .ok [plainStep]
      ∧ cutSlice [plainStep] 1 1 = .error "InvalidRange" := by
  constructor <;> rfl

/-- C2 (amended): start is clamped only from below (start = max 0 s, it
is not forced under len); end is clamped from above (end = min len e);
the run fails with InvalidRange exactly when the clamped end <= the
clamped start, and otherwise the result is exactly the slice
[start, end) of the source frames in order. -/
theorem cutSlice_characterization (frames : List Step) (s e : Int) :
    (min (frames.length : Int) e ≤ max 0 s →
      cutSlice frames s e = .error "InvalidRange")
    ∧ (max 0 s < min (frames.length : Int) e →
      ∃ out, cutSlice frames s e = .ok out
        ∧ out.length = (min (frames.length : Int) e - max 0 s).toNat
        ∧ ∀ i, i < out.length →
            out[i]? = frames[(max 0 s).toNat + i]?) := by
  constructor
  · intro h
    simp only [cutSlice, if_pos h]
  · intro h
    refine ⟨(frames.drop (max 0 s).toNat).take
        (min (frames.length : Int) e - max 0 s).toNat,
      by simp only [cutSlice, if_neg (not_le.mpr h)], ?_, ?_⟩
    · have h0 : (0 : Int) ≤ max 0 s := le_max_left 0 s
      have hlen : min (frames.length : Int) e ≤ (frames.length : Int) :=
        min_le_left _ _
      rw [List.length_take, List.length_drop]
      omega
    · intro i hi
      have h0 : (0 : Int) ≤ max 0 s := le_max_left 0 s
      have hlen : min (frames.length : Int) e ≤ (frames.length : Int) :=
        min_le_left _ _
      rw [List.length_take, List.length_drop] at hi
      rw [List.getElem?_take, if_pos (by omega), List.getElem?_drop]

/-- Witness for cutSlice_characterization: a two-frame episode, range
[-5, 9): start clamps to 0, end to 2, both frames retained. -/
theorem cutSlice_characterization_witness :
    (max 0 (-5 : Int) < min (([plainStep, plainStep] : List Step).length : Int) 9)
    ∧ ∃ out, cutSlice [plainStep, plainStep] (-5) 9 = .ok out
        ∧ out.length = (min (([plainStep, plainStep] : List Step).length : Int) 9
            - max 0 (-5 : Int)).toNat
        ∧ ∀ i, i < out.length →
            out[i]? = [plainStep, plainStep][(max 0 (-5 : Int)).toNat + i]? :=
  ⟨by decide, (cutSlice_characterization [plainStep, plainStep] (-5) 9).2 (by decide)⟩

/-- A step with its idx normalized, for comparisons modulo idx. -/
def stripIdx (s : Step) : Step := { s with idx := 0 }

theorem stripIdx_set_idx (s : Step) (i : Int) :
    stripIdx { s with idx := i } = stripIdx s := rfl

theorem reindexSteps_map_idx (l : List Step) :
    (reindexSteps l).map Step.idx = (List.range l.length).map Int.ofNat := by
  unfold reindexSteps
  rw [List.map_map, ← List.enum_map_fst l, List.map_map]
  rfl

theorem reindexSteps_map_stripIdx (l : List Step) :
    (reindexSteps l).map stripIdx = l.map stripIdx := by
  unfold reindexSteps
  rw [List.map_map]
  conv_rhs => rw [← List.enum_map_snd l, List.map_map]
  rfl

/-- C3: for the output of any successful cut, reindexing (the default)
rewrites the idx fields to exactly 0..count-1 in slice order and leaves
every other field of every frame unchanged, while --keep-idx returns the
slice completely unchanged. -/
theorem cut_reindex_law (frames : List Step) (s e : Int) (out : List Step)
    (h : cutSlice frames s e = .ok out) :
    (applyReindex false out).map Step.idx = (List.range out.length).map Int.ofNat
    ∧ (applyReindex false out).map stripIdx = out.map stripIdx
    ∧ applyReindex true out = out := by
  refine ⟨?_, ?_, rfl⟩
  · exact reindexSteps_map_idx out
  · exact reindexSteps_map_stripIdx out

/-- Witness for cut_reindex_law on a concrete two-frame cut. -/
theorem cut_reindex_law_witness :
    cutSlice [plainStep, plainStep] 0 2 = .ok [plainStep, plainStep]
    ∧ ((applyReindex false [plainStep, plainStep]).map Step.idx
        = (List.range ([plainStep, plainStep] : List Step).length).map Int.ofNat
      ∧ (applyReindex false [plainStep, plainStep]).map stripIdx
        = ([plainStep, plainStep] : List Step).map stripIdx
      ∧ applyReindex true [plainStep, plainStep] = [plainStep, plainStep]) :=
  ⟨by rfl, cut_reindex_law [plainStep, plainStep] 0 2 [plainStep, plainStep] (by rfl)⟩

theorem cutSlice_map_dropCameras (frames : List Step) (K : List String) (s e : Int) :
    cutSlice (frames.map (dropCamerasStep K)) s e
      = (cutSlice frames s e).map (List.map (dropCamerasStep K)) := by
  unfold cutSlice
  rw [List.length_map]
  by_cases h : min (frames.length : Int) e ≤ max 0 s
  · rw [if_pos h, if_pos h]; rfl
  · rw [if_neg h, if_neg h, Except.map, ← List.map_drop, ← List.map_take]

theorem dropCamerasStep_set_idx (K : List String) (s : Step) (i : Int) :
    dropCamerasStep K { s with idx := i } = { dropCamerasStep K s with idx := i } := rfl

theorem reindexSteps_map_dropCameras (K : List String) (l : List Step) :
    reindexSteps (l.map (dropCamerasStep K)) = (reindexSteps l).map (dropCamerasStep K) := by
  unfold reindexSteps
  rw [List.enum_map, List.map_map, List.map_map]
  rfl

theorem applyReindex_map_dropCameras (keepIdx : Bool) (K : List String) (l : List Step) :
    applyReindex keepIdx (l.map (dropCamerasStep K))
      = (applyReindex keepIdx l).map (dropCamerasStep K) := by
  cases keepIdx
  · exact reindexSteps_map_dropCameras K l
  · rfl

/-- C7: dropping camera keys commutes with cutting; filtering the cut
result gives exactly the cut of the filtered episode, in both reindex
modes (so in particular the metadata agrees up to idx values). -/
theorem filter_cut_commute (frames : List Step) (K : List String)
    (s e : Int) (keepIdx : Bool) :
    (cutSlice frames s e).map
        (fun out => (applyReindex keepIdx out).map (dropCamerasStep K))
      = (cutSlice (frames.map (dropCamerasStep K)) s e).map (applyReindex keepIdx) := by
  rw [cutSlice_map_dropCameras]
  cases hc : cutSlice frames s e with
  | error m => rfl
  | ok out =>
    show Except.ok _ = Except.ok _
    rw [applyReindex_map_dropCameras]

theorem foldl_filter_key {α : Type} (G : List String) (m : List (String × α)) :
    G.foldl (fun acc g => acc.filter (fun kv => ¬ (kv.1 = g))) m
      = m.filter (fun kv => ¬ G.contains kv.1) := by
  induction G generalizing m with
  | nil =>
    simp only [List.foldl_nil]
    rw [List.filter_eq_self.mpr]
    intro a _
    simp
  | cons g G ih =>
    rw [List.foldl_cons, ih, List.filter_filter]
    apply List.filter_congr
    intro a _
    by_cases h1 : a.1 = g <;> by_cases h2 : G.contains a.1 <;>
      simp [h1, h2, List.contains_cons]

theorem dropGroupsStep_eq (G : List String) (s : Step) :
    dropGroupsStep G s =
      { s with
        states := s.states.filter (fun kv => ¬ G.contains kv.1),
        actions := s.actions.filter (fun kv => ¬ G.contains kv.1) } := by
  induction G generalizing s with
  | nil =>
    show s = _
    have h : ∀ m : List (String × String),
        m.filter (fun kv => ¬ (([] : List String).contains kv.1)) = m := by
      intro m
      rw [List.filter_eq_self.mpr]
      intro a _
      simp
    rw [h, h]
  | cons g G ih =>
    show dropGroupsStep G (drop_group_in_step g s) = _
    rw [ih]
    unfold drop_group_in_step
    have h : ∀ m : List (String × String),
        (m.filter (fun kv => ¬ (kv.1 = g))).filter (fun kv => ¬ G.contains kv.1)
          = m.filter (fun kv => ¬ (g :: G).contains kv.1) := by
      intro m
      rw [List.filter_filter]
      apply List.filter_congr
      intro a _
      by_cases h1 : a.1 = g <;> by_cases h2 : G.contains a.1 <;>
        simp [h1, h2, List.contains_cons]
    simp only []
    rw [h, h]

theorem filter_key_idem {α : Type} (G : List String) (m : List (String × α)) :
    (m.filter (fun kv => ¬ G.contains kv.1)).filter (fun kv => ¬ G.contains kv.1)
      = m.filter (fun kv => ¬ G.contains kv.1) := by
  rw [List.filter_filter]
  apply List.filter_congr
  intro a _
  by_cases h : G.contains a.1 <;> simp [h]

theorem dropGroupsInfo_eq (G : List String) (info : Info) :
    dropGroupsInfo G info =
      { joint_names := info.joint_names.filter (fun kv => ¬ G.contains kv.1),
        tactile_names := info.tactile_names.filter (fun kv => ¬ G.contains kv.1) } := by
  unfold dropGroupsInfo
  rw [foldl_filter_key, foldl_filter_key]

/-- C8: filterJointGroups is idempotent on the whole document — frames
(states and actions of every step) and the info tables alike; dropping a
group that is already absent changes nothing, so a second application is
the identity on the first one's output. -/
theorem filterJointGroups_idempotent (G : List String) (d : DataJson) :
    filterJointGroups G (filterJointGroups G d) = filterJointGroups G d := by
  unfold filterJointGroups
  rw [dropGroupsInfo_eq, dropGroupsInfo_eq, List.map_map]
  simp only [filter_key_idem]
  congr 1
  apply List.map_congr_left
  intro s _
  show dropGroupsStep G (dropGroupsStep G s) = dropGroupsStep G s
  rw [dropGroupsStep_eq G s, dropGroupsStep_eq G _]
  simp only [filter_key_idem]

/-- C10: the joint-group filter never touches a frame's tactiles
mapping: the sequence of per-frame tactiles fields is exactly the same
before and after filtering, whatever groups are dropped (even ones it
removes from states, actions, joint_names and tactile_names). -/
theorem filterJointGroups_preserves_tactiles (G : List String) (d : DataJson) :
    (filterJointGroups G d).data.map Step.tactiles = d.data.map Step.tactiles := by
  unfold filterJointGroups
  simp only [List.map_map]
  apply List.map_congr_left
  intro s _
  show (dropGroupsStep G s).tactiles = s.tactiles
  rw [dropGroupsStep_eq]

theorem relsOfAssoc_mem (m : List (String × String)) (p : String) :
    p ∈ relsOfAssoc m ↔ (p ≠ "" ∧ ∃ k, (k, p) ∈ m) := by
  unfold relsOfAssoc
  rw [List.mem_filter, List.mem_map]
  constructor
  · rintro ⟨⟨a, ha, rfl⟩, hne⟩
    exact ⟨by simpa using hne, a.1, ha⟩
  · rintro ⟨hne, k, hk⟩
    exact ⟨⟨(k, p), hk, rfl⟩, by simpa using hne⟩

theorem audioRefs_mem (a : AudiosField) (p : String) :
    p ∈ audioRefs a ↔
      (p ≠ "" ∧ match a with
        | .null => False
        | .path q => p = q
        | .table m => ∃ k, (k, p) ∈ m) := by
  cases a with
  | null => simp [audioRefs]
  | path q =>
    simp only [audioRefs]
    by_cases h : q = "" <;> simp [h] <;> rintro rfl <;> simp_all
  | table m => simpa [audioRefs] using relsOfAssoc_mem m p

/-- C6: the collected reference set contains exactly the non-empty path
values found in some frame's colors mapping, depths mapping, or audios
field (single path or mapping form); empty strings contribute nothing,
and nothing reachable only through states, actions or tactiles is ever
collected. -/
theorem collect_referenced_files_mem (d : DataJson) (p : String) :
    p ∈ collect_referenced_files d ↔
      (p ≠ "" ∧ ∃ s ∈ d.data,
        (∃ k, (k, p) ∈ s.colors) ∨ (∃ k, (k, p) ∈ s.depths) ∨
        (match s.audios with
          | .null => False
          | .path q => p = q
          | .table m => ∃ k, (k, p) ∈ m)) := by
  unfold collect_referenced_files
  rw [List.mem_dedup, List.mem_flatMap]
  constructor
  · rintro ⟨s, hs, hp⟩
    unfold stepRefs at hp
    rw [List.mem_append, List.mem_append, relsOfAssoc_mem, relsOfAssoc_mem,
      audioRefs_mem] at hp
    rcases hp with (⟨hne, h⟩ | ⟨hne, h⟩) | ⟨hne, h⟩
    · exact ⟨hne, s, hs, Or.inl h⟩
    · exact ⟨hne, s, hs, Or.inr (Or.inl h)⟩
    · exact ⟨hne, s, hs, Or.inr (Or.inr h)⟩
  · rintro ⟨hne, s, hs, h⟩
    refine ⟨s, hs, ?_⟩
    unfold stepRefs
    rw [List.mem_append, List.mem_append, relsOfAssoc_mem, relsOfAssoc_mem,
      audioRefs_mem]
    rcases h with h | h | h
    · exact Or.inl (Or.inl ⟨hne, h⟩)
    · exact Or.inl (Or.inr ⟨hne, h⟩)
    · exact Or.inr ⟨hne, h⟩

/-! ## Sorting lemmas -/

theorem insertLe_perm {α : Type} (le : α → α → Bool) (a : α) (l : List α) :
    (insertLe le a l).Perm (a :: l) := by
  induction l with
  | nil => exact List.Perm.refl _
  | cons b bs ih =>
    unfold insertLe
    by_cases h : le a b = true
    · rw [if_pos h]
    · rw [if_neg h]
      exact (List.Perm.cons b ih).trans (List.Perm.swap a b bs)

theorem sortLe_perm {α : Type} (le : α → α → Bool) (l : List α) :
    (sortLe le l).Perm l := by
  induction l with
  | nil => exact List.Perm.refl _
  | cons a as ih =>
    exact (insertLe_perm le a (sortLe le as)).trans (List.Perm.cons a ih)

theorem mem_sortLe {α : Type} (le : α → α → Bool) (x : α) (l : List α) :
    x ∈ sortLe le l ↔ x ∈ l :=
  (sortLe_perm le l).mem_iff

theorem pairwise_insertLe {α : Type} (le : α → α → Bool)
    (htot : ∀ x y, le x y = true ∨ le y x = true)
    (htrans : ∀ x y z, le x y = true → le y z = true → le x z = true)
    (a : α) (l : List α) (h : l.Pairwise (fun x y => le x y = true)) :
    (insertLe le a l).Pairwise (fun x y => le x y = true) := by
  induction l with
  | nil => simp [insertLe]
  | cons b bs ih =>
    rcases List.pairwise_cons.mp h with ⟨hb, hbs⟩
    unfold insertLe
    by_cases hab : le a b = true
    · rw [if_pos hab]
      refine List.pairwise_cons.mpr ⟨?_, h⟩
      intro x hx
      rcases List.mem_cons.mp hx with rfl | hx
      · exact hab
      · exact htrans a b x hab (hb x hx)
    · rw [if_neg hab]
      refine List.pairwise_cons.mpr ⟨?_, ih hbs⟩
      intro x hx
      rcases (insertLe_perm le a bs).mem_iff.mp hx with hx'
      rcases List.mem_cons.mp hx' with rfl | hx'
      · rcases htot x b with h' | h'
        · exact absurd h' hab
        · exact h'
      · exact hb x hx'

theorem pairwise_sortLe {α : Type} (le : α → α → Bool)
    (htot : ∀ x y, le x y = true ∨ le y x = true)
    (htrans : ∀ x y z, le x y = true → le y z = true → le x z = true)
    (l : List α) :
    (sortLe le l).Pairwise (fun x y => le x y = true) := by
  induction l with
  | nil => simp [sortLe]
  | cons a as ih => exact pairwise_insertLe le htot htrans a (sortLe le as) ih

theorem getLast?_pairwise {α : Type} (le : α → α → Bool) (l : List α)
    (h : l.Pairwise (fun x y => le x y = true)) (m : α)
    (hm : l.getLast? = some m) :
    ∀ x ∈ l, x = m ∨ le x m = true := by
  induction l with
  | nil => simp at hm
  | cons a t ih =>
    cases t with
    | nil =>
      intro x hx
      rcases List.mem_singleton.mp hx with rfl
      simp only [List.getLast?_singleton, Option.some.injEq] at hm
      exact Or.inl hm
    | cons b t' =>
      rcases List.pairwise_cons.mp h with ⟨ha, ht⟩
      rw [List.getLast?_cons_cons] at hm
      intro x hx
      rcases List.mem_cons.mp hx with rfl | hx
      · have hmem : m ∈ b :: t' := List.mem_of_mem_getLast? hm
        exact Or.inr (ha m hmem)
      · exact ih ht hm x hx

theorem sortLe_length {α : Type} (le : α → α → Bool) (l : List α) :
    (sortLe le l).length = l.length :=
  (sortLe_perm le l).length_eq

theorem sortLe_nodup {α : Type} (le : α → α → Bool) (l : List α)
    (h : l.Nodup) : (sortLe le l).Nodup :=
  ((sortLe_perm le l).nodup_iff).mpr h

/-! ## Path string lemmas -/

theorem splitSlash_ne_nil (l : List Char) : splitSlash l ≠ [] := by
  cases l with
  | nil => simp [splitSlash]
  | cons c cs =>
    unfold splitSlash
    by_cases h : c = '/'
    · simp [h]
    · simp only [if_neg h]
      cases splitSlash cs <;> simp

theorem joinSlash_splitSlash (l : List Char) : joinSlash (splitSlash l) = l := by
  induction l with
  | nil => rfl
  | cons c cs ih =>
    unfold splitSlash
    by_cases h : c = '/'
    · rw [if_pos h]
      cases hr : splitSlash cs with
      | nil => exact absurd hr (splitSlash_ne_nil cs)
      | cons a t =>
        show joinSlash ([] :: a :: t) = c :: cs
        have hstep : joinSlash ([] :: a :: t) = '/' :: joinSlash (a :: t) := rfl
        rw [hstep, ← hr, ih, h]
    · simp only [if_neg h]
      cases hr : splitSlash cs with
      | nil => exact absurd hr (splitSlash_ne_nil cs)
      | cons a t =>
        rw [hr] at ih
        cases t with
        | nil =>
          show [c] ++ a = c :: cs
          have : joinSlash [a] = a := rfl
          rw [this] at ih
          simp [ih]
        | cons b t' =>
          show (c :: a) ++ '/' :: joinSlash (b :: t') = c :: cs
          have : joinSlash (a :: b :: t') = a ++ '/' :: joinSlash (b :: t') := rfl
          rw [this] at ih
          simpa using ih

theorem self_mem_ancestorPaths (p : String) : p ∈ ancestorPaths p := by
  unfold ancestorPaths
  rw [List.mem_map]
  have hne := splitSlash_ne_nil p.data
  have hpos : 0 < (splitSlash p.data).length := List.length_pos.mpr hne
  refine ⟨(splitSlash p.data).length - 1, List.mem_range.mpr (by omega), ?_⟩
  rw [Nat.sub_add_cancel hpos, List.take_length, joinSlash_splitSlash]

theorem pjoin_data (a b : String) : (pjoin a b).data = a.data ++ ('/' :: b.data) := by
  show ((a ++ "/") ++ b).data = _
  have h1 : ((a ++ "/") ++ b).data = (a.data ++ ['/']) ++ b.data := rfl
  rw [h1, List.append_assoc]
  rfl

theorem pjoin_right_inj {a b c : String} (h : pjoin a b = pjoin a c) : b = c := by
  have hd := congrArg String.data h
  rw [pjoin_data, pjoin_data] at hd
  have h2 := List.append_cancel_left hd
  have h3 : b.data = c.data := by injection h2
  cases b; cases c
  exact congrArg String.mk h3

theorem underPath_pjoin (root x : String) : underPath root (pjoin root x) = true := by
  unfold underPath
  have h : (root.data ++ ['/']).isPrefixOf (pjoin root x).data = true := by
    rw [pjoin_data]
    apply List.isPrefixOf_iff_prefix.mpr
    have : root.data ++ ('/' :: x.data) = (root.data ++ ['/']) ++ x.data := by
      rw [List.append_assoc]; rfl
    rw [this]
    exact List.prefix_append _ _
  rw [h, Bool.or_true]

theorem ne_of_under_not_under {R p q : String}
    (h1 : underPath R p = true) (h2 : underPath R q = false) : p ≠ q := by
  intro heq
  rw [heq, h2] at h1
  cases h1

/-! ## Filesystem lemmas -/

theorem FS.hasDir_iff_mem (fs : FS) (p : String) : fs.hasDir p = true ↔ p ∈ fs.dirs := by
  unfold FS.hasDir
  exact List.elem_iff

theorem FS.mkdir1_files (fs : FS) (p : String) : (fs.mkdir1 p).files = fs.files := by
  unfold FS.mkdir1
  split <;> rfl

theorem FS.foldl_mkdir1_files (L : List String) (fs : FS) :
    (L.foldl FS.mkdir1 fs).files = fs.files := by
  induction L generalizing fs with
  | nil => rfl
  | cons p L ih => rw [List.foldl_cons, ih, FS.mkdir1_files]

theorem FS.mkdirParents_files (fs : FS) (p : String) :
    (fs.mkdirParents p).files = fs.files :=
  FS.foldl_mkdir1_files _ fs

theorem FS.mkdirParents_getFile (fs : FS) (p q : String) :
    (fs.mkdirParents p).getFile q = fs.getFile q := by
  unfold FS.getFile
  rw [FS.mkdirParents_files]

theorem FS.write_dirs (fs : FS) (p : String) (c : FileData) :
    (fs.write p c).dirs = fs.dirs := rfl

theorem FS.mkdir1_hasDir_mono {fs : FS} {q : String} (p : String)
    (h : fs.hasDir q = true) : (fs.mkdir1 p).hasDir q = true := by
  unfold FS.mkdir1
  split
  · exact h
  · rw [FS.hasDir_iff_mem] at h ⊢
    simp only [List.mem_append]
    exact Or.inl h

theorem FS.mkdir1_hasDir_self (fs : FS) (p : String) :
    (fs.mkdir1 p).hasDir p = true := by
  unfold FS.mkdir1
  split
  · assumption
  · rw [FS.hasDir_iff_mem]
    simp

theorem FS.foldl_mkdir1_hasDir_mono {q : String} (L : List String) (fs : FS)
    (h : fs.hasDir q = true) : (L.foldl FS.mkdir1 fs).hasDir q = true := by
  induction L generalizing fs with
  | nil => exact h
  | cons p L ih => exact ih _ (FS.mkdir1_hasDir_mono p h)

theorem FS.foldl_mkdir1_hasDir_of_mem {q : String} (L : List String) (fs : FS)
    (h : q ∈ L) : (L.foldl FS.mkdir1 fs).hasDir q = true := by
  induction L generalizing fs with
  | nil => cases h
  | cons p L ih =>
    rcases List.mem_cons.mp h with rfl | h
    · exact FS.foldl_mkdir1_hasDir_mono L _ (FS.mkdir1_hasDir_self fs q)
    · exact ih _ h

theorem FS.mkdirParents_hasDir_self (fs : FS) (p : String) :
    (fs.mkdirParents p).hasDir p = true :=
  FS.foldl_mkdir1_hasDir_of_mem _ fs (self_mem_ancestorPaths p)

theorem FS.mkdirParents_hasDir_mono {fs : FS} {q : String} (p : String)
    (h : fs.hasDir q = true) : (fs.mkdirParents p).hasDir q = true :=
  FS.foldl_mkdir1_hasDir_mono _ fs h

theorem FS.write_hasDir (fs : FS) (p : String) (c : FileData) (q : String) :
    (fs.write p c).hasDir q = fs.hasDir q := rfl

theorem find?_key_filter_ne {p q : String} (h : ¬ (p = q))
    (l : List (String × FileData)) :
    (l.filter (fun kv => ¬ (kv.1 = p))).find? (fun kv => kv.1 = q)
      = l.find? (fun kv => kv.1 = q) := by
  induction l with
  | nil => rfl
  | cons a l ih =>
    by_cases hp : a.1 = p
    · have hq : ¬ (a.1 = q) := by rw [hp]; exact h
      rw [List.filter_cons_of_neg (by simpa using hp), ih,
        List.find?_cons_of_neg _ (by simpa using hq)]
    · rw [List.filter_cons_of_pos (by simpa using hp)]
      by_cases hq : a.1 = q
      · rw [List.find?_cons_of_pos _ (by simpa using hq),
          List.find?_cons_of_pos _ (by simpa using hq)]
      · rw [List.find?_cons_of_neg _ (by simpa using hq),
          List.find?_cons_of_neg _ (by simpa using hq), ih]

theorem FS.write_getFile_self (fs : FS) (p : String) (c : FileData) :
    (fs.write p c).getFile p = some c := by
  unfold FS.write FS.getFile
  rw [List.find?_append]
  have h : (fs.files.filter (fun kv => ¬ (kv.1 = p))).find? (fun kv => kv.1 = p)
      = none := by
    rw [List.find?_eq_none]
    intro x hx
    rcases List.mem_filter.mp hx with ⟨_, hpx⟩
    simpa using hpx
  rw [h]
  simp

theorem FS.write_getFile_ne {p q : String} (fs : FS) (c : FileData) (h : ¬ (p = q)) :
    (fs.write p c).getFile q = fs.getFile q := by
  unfold FS.write FS.getFile
  rw [List.find?_append, find?_key_filter_ne h]
  cases hf : fs.files.find? (fun kv => kv.1 = q) with
  | some r => rfl
  | none =>
    simp [List.find?_cons, h]

/-! ## Materializer loop lemmas -/

theorem copyRefs_warnings_mono {epPath outEp : String} (L : List String)
    (fs : FS) (ws : List String) {x : String} (hx : x ∈ ws) :
    x ∈ (copyRefs epPath outEp L fs ws).2 := by
  induction L generalizing fs ws with
  | nil => exact hx
  | cons rel rest ih =>
    simp only [copyRefs]
    split
    · exact ih _ _ (List.mem_append.mpr (Or.inl hx))
    · exact ih _ _ hx

theorem copyRefs_getFile_not_written {epPath outEp q : String} (L : List String)
    (hq : ∀ rel ∈ L, ¬ (pjoin outEp rel = q)) (fs : FS) (ws : List String) :
    (copyRefs epPath outEp L fs ws).1.getFile q = fs.getFile q := by
  induction L generalizing fs ws with
  | nil => rfl
  | cons rel rest ih =>
    simp only [copyRefs]
    split
    · rw [ih (fun r hr => hq r (List.mem_cons_of_mem _ hr)) _ _,
        FS.mkdirParents_getFile]
    · rw [ih (fun r hr => hq r (List.mem_cons_of_mem _ hr)) _ _,
        FS.write_getFile_ne _ _ (hq rel (List.mem_cons_self _ _)),
        FS.mkdirParents_getFile]

theorem copyRefs_copies {epPath outEp : String} (L : List String)
    (hnd : L.Nodup)
    (hsep : ∀ r ∈ L, underPath outEp (pjoin epPath r) = false)
    {rel : String} (hrel : rel ∈ L) {c : FileData}
    (fs : FS) (ws : List String)
    (hsrc : fs.getFile (pjoin epPath rel) = some c) :
    (copyRefs epPath outEp L fs ws).1.getFile (pjoin outEp rel) = some c := by
  induction L generalizing fs ws with
  | nil => cases hrel
  | cons r rest ih =>
    rcases List.nodup_cons.mp hnd with ⟨hrn, hnd'⟩
    simp only [copyRefs]
    by_cases heq : rel = r
    · subst heq
      have hf : (fs.mkdirParents (parentOf (pjoin outEp rel))).getFile
          (pjoin epPath rel) = some c := by
        rw [FS.mkdirParents_getFile]; exact hsrc
      rw [hf]
      exact (copyRefs_getFile_not_written rest
          (fun r' hr' heq' => hrn (by rwa [pjoin_right_inj heq'] at hr')) _ _).trans
        (FS.write_getFile_self _ _ _)
    · have hrel' : rel ∈ rest := (List.mem_cons.mp hrel).resolve_left heq
      have hsep' : ∀ r' ∈ rest, underPath outEp (pjoin epPath r') = false :=
        fun r' hr' => hsep r' (List.mem_cons_of_mem _ hr')
      cases hf : (fs.mkdirParents (parentOf (pjoin outEp r))).getFile
          (pjoin epPath r) with
      | none =>
        exact ih hnd' hsep' hrel' _ _
          (by rw [FS.mkdirParents_getFile]; exact hsrc)
      | some d =>
        refine ih hnd' hsep' hrel' _ _ ?_
        rw [FS.write_getFile_ne _ _
          (ne_of_under_not_under (underPath_pjoin outEp r)
            (hsep rel hrel)),
          FS.mkdirParents_getFile]
        exact hsrc

theorem copyRefs_missing {epPath outEp : String} (L : List String)
    (hnd : L.Nodup)
    (hsep : ∀ r ∈ L, underPath outEp (pjoin epPath r) = false)
    {rel : String} (hrel : rel ∈ L)
    (fs : FS) (ws : List String)
    (hsrc : fs.getFile (pjoin epPath rel) = none) :
    ("WARNING: referenced file missing, skipping: " ++ pjoin epPath rel)
        ∈ (copyRefs epPath outEp L fs ws).2
    ∧ (copyRefs epPath outEp L fs ws).1.getFile (pjoin outEp rel)
        = fs.getFile (pjoin outEp rel) := by
  induction L generalizing fs ws with
  | nil => cases hrel
  | cons r rest ih =>
    rcases List.nodup_cons.mp hnd with ⟨hrn, hnd'⟩
    simp only [copyRefs]
    by_cases heq : rel = r
    · subst heq
      have hf : (fs.mkdirParents (parentOf (pjoin outEp rel))).getFile
          (pjoin epPath rel) = none := by
        rw [FS.mkdirParents_getFile]; exact hsrc
      rw [hf]
      constructor
      · exact copyRefs_warnings_mono _ _ _
          (List.mem_append.mpr (Or.inr (List.mem_singleton.mpr rfl)))
      · exact (copyRefs_getFile_not_written rest
            (fun r' hr' heq' => hrn (by rwa [pjoin_right_inj heq'] at hr')) _ _).trans
          (FS.mkdirParents_getFile _ _ _)
    · have hrel' : rel ∈ rest := (List.mem_cons.mp hrel).resolve_left heq
      have hsep' : ∀ r' ∈ rest, underPath outEp (pjoin epPath r') = false :=
        fun r' hr' => hsep r' (List.mem_cons_of_mem _ hr')
      cases hf : (fs.mkdirParents (parentOf (pjoin outEp r))).getFile
          (pjoin epPath r) with
      | none =>
        have hres := ih hnd' hsep' hrel' (fs.mkdirParents (parentOf (pjoin outEp r)))
          (ws ++ ["WARNING: referenced file missing, skipping: " ++ pjoin epPath r])
          (by rw [FS.mkdirParents_getFile]; exact hsrc)
        exact ⟨hres.1, hres.2.trans (FS.mkdirParents_getFile _ _ _)⟩
      | some d =>
        have hsrc' : ((fs.mkdirParents (parentOf (pjoin outEp r))).write
            (pjoin outEp r) d).getFile (pjoin epPath rel) = none := by
          rw [FS.write_getFile_ne _ _
            (ne_of_under_not_under (underPath_pjoin outEp r) (hsep rel hrel)),
            FS.mkdirParents_getFile]
          exact hsrc
        have hres := ih hnd' hsep' hrel' _ ws hsrc'
        refine ⟨hres.1, hres.2.trans ?_⟩
        exact (FS.write_getFile_ne _ _
            (fun heq' => heq (pjoin_right_inj heq').symm)).trans
          (FS.mkdirParents_getFile _ _ _)

theorem foldl_write_getFile_not_written {outEp q : String}
    (L : List (String × FileData)) (fs : FS)
    (hq : ∀ nc ∈ L, ¬ (pjoin outEp nc.1 = q)) :
    (L.foldl (fun acc nc => acc.write (pjoin outEp nc.1) nc.2) fs).getFile q
      = fs.getFile q := by
  induction L generalizing fs with
  | nil => rfl
  | cons nc L ih =>
    rw [List.foldl_cons, ih _ (fun x hx => hq x (List.mem_cons_of_mem _ hx)),
      FS.write_getFile_ne _ _ (hq nc (List.mem_cons_self _ _))]

theorem foldl_write_dirs {outEp : String} (L : List (String × FileData)) (fs : FS) :
    (L.foldl (fun acc nc => acc.write (pjoin outEp nc.1) nc.2) fs).dirs = fs.dirs := by
  induction L generalizing fs with
  | nil => rfl
  | cons nc L ih => rw [List.foldl_cons, ih, FS.write_dirs]

theorem copyRefs_hasDir_mono {epPath outEp q : String} (L : List String)
    (fs : FS) (ws : List String) (h : fs.hasDir q = true) :
    (copyRefs epPath outEp L fs ws).1.hasDir q = true := by
  induction L generalizing fs ws with
  | nil => exact h
  | cons rel rest ih =>
    simp only [copyRefs]
    split
    · exact ih _ _ (FS.mkdirParents_hasDir_mono _ h)
    · exact ih _ _ (FS.mkdirParents_hasDir_mono _ h)

theorem processEpisode_hasDir_mono {src dst : String} {dropC dropG : List String}
    {name : String} {q : String} (fs : FS) (ws : List String)
    (h : fs.hasDir q = true) :
    (processEpisode src dst dropC dropG name fs ws).fs.hasDir q = true := by
  simp only [processEpisode]
  split
  · exact h
  · exact h
  · split
    · exact h
    · apply copyRefs_hasDir_mono
      show (FS.hasDir _ q) = true
      unfold FS.hasDir
      rw [FS.write_dirs, foldl_write_dirs]
      exact FS.mkdirParents_hasDir_mono _ h

theorem processSelected_hasDir_mono {src dst : String} {dropC dropG : List String}
    {q : String} (sel : List (Nat × String)) (fs : FS) (ws : List String)
    (h : fs.hasDir q = true) :
    (processSelected src dst dropC dropG sel fs ws).fs.hasDir q = true := by
  induction sel generalizing fs ws with
  | nil => exact h
  | cons t rest ih =>
    simp only [processSelected]
    split
    · exact processEpisode_hasDir_mono fs ws h
    · exact ih _ _ (processEpisode_hasDir_mono fs ws h)

/-- C9: with --end -1 and a source directory containing no episode_NNNN
subfolder, filter_dataset2 dies with an uncaught IndexError at
episodes[-1], never reaching the no-episodes-in-range diagnostic; for
any non-empty scan, -1 resolves to the largest discovered index. -/
theorem end_flag_resolution :
    (∀ (a : Filter2Args) (fs : FS),
      fs.hasDir a.src = true →
      0 ≤ a.init →
      a.endIdx = -1 →
      fs.pathExists (dstOf a.src a.dstParent a.suffix) = false →
      listEpisodes fs a.src = [] →
      runFilter2 a fs = ⟨fs, [], some "IndexError"⟩)
    ∧ (∀ l : List (Nat × String), l ≠ [] →
      ∃ t ∈ l, resolveEnd (sortByIdx l) (-1) = some (t.1 : Int)
        ∧ ∀ u ∈ l, u.1 ≤ t.1) := by
  constructor
  · intro a fs hsrc hinit hend hdst hlist
    have hrange : filter2RangeBad a = false := by
      unfold filter2RangeBad
      rw [hend]
      simp [not_lt.mpr hinit]
    simp [runFilter2, hsrc, hrange, hdst, hlist, hend, sortByIdx, sortLe, resolveEnd]
  · intro l hl
    have hLnil : sortByIdx l ≠ [] := by
      intro h
      apply hl
      have := sortLe_perm (fun a b => a.1 ≤ b.1) l
      rw [show sortByIdx l = sortLe (fun a b => a.1 ≤ b.1) l from rfl] at h
      rw [h] at this
      exact this.symm.eq_nil
    obtain ⟨m, hm⟩ := Option.ne_none_iff_exists'.mp
      (fun h => hLnil (List.getLast?_eq_none_iff.mp h))
    have hmem : m ∈ sortByIdx l := List.mem_of_mem_getLast? hm
    have hmeml : m ∈ l := (mem_sortLe _ _ _).mp hmem
    refine ⟨m, hmeml, ?_, ?_⟩
    · unfold resolveEnd
      rw [if_pos rfl, hm]
      rfl
    · intro u hu
      have hus : u ∈ sortByIdx l := (mem_sortLe _ _ _).mpr hu
      have hpw := pairwise_sortLe (fun a b : Nat × String => a.1 ≤ b.1)
        (fun x y => by
          rcases Nat.le_total x.1 y.1 with h | h
          · exact Or.inl (by simpa using h)
          · exact Or.inr (by simpa using h))
        (fun x y z hxy hyz => by
          simp only [decide_eq_true_eq] at hxy hyz ⊢
          omega) l
      rcases getLast?_pairwise _ _ hpw m hm u hus with rfl | hle
      · exact le_refl _
      · simpa using hle

/-- Witness for end_flag_resolution: the empty-scan crash on a concrete
tree and the -1 resolution on a concrete unsorted scan list. -/
theorem end_flag_resolution_witness :
    runFilter2 argsNoEp fsNoEp = ⟨fsNoEp, [], some "IndexError"⟩
    ∧ ∃ t ∈ scanW, resolveEnd (sortByIdx scanW) (-1) = some (t.1 : Int)
        ∧ ∀ u ∈ scanW, u.1 ≤ t.1 :=
  ⟨end_flag_resolution.1 argsNoEp fsNoEp (by decide) (by decide) (by decide)
      (by decide) (by decide),
   end_flag_resolution.2 scanW (by decide)⟩

theorem cutSlice_error_tag {frames : List Step} {s e : Int} {m : String}
    (h : cutSlice frames s e = .error m) : m = "InvalidRange" := by
  simp only [cutSlice] at h
  split at h
  · injection h with h'
    exact h'.symm
  · exact Except.noConfusion h

theorem copyStepRels_error_tag {srcEp dstEp : String} {st : Step} {fs fs1 : FS}
    {e : String} (h : copyStepRels srcEp dstEp st fs = (fs1, some e)) :
    e = "AttributeError" := by
  simp only [copyStepRels] at h
  split at h
  · injection h with h1 h2
    exact Option.noConfusion h2
  · split at h
    · injection h with h1 h2
      exact Option.noConfusion h2
    · injection h with h1 h2
      injection h2 with h3
      exact h3.symm
  · injection h with h1 h2
    exact Option.noConfusion h2

theorem copyAllRels_error_tag {srcEp dstEp : String} {steps : List Step}
    {fs fs1 : FS} {e : String}
    (h : copyAllRels srcEp dstEp steps fs = (fs1, some e)) :
    e = "AttributeError" := by
  induction steps generalizing fs with
  | nil =>
    unfold copyAllRels at h
    cases h
  | cons st rest ih =>
    unfold copyAllRels at h
    split at h
    · rename_i heq
      rw [h] at heq
      exact copyStepRels_error_tag heq
    · exact ih h

/-- C1 counterexample: cut_episode creates its destination with
exist_ok=True, so cutting into the pre-existing, non-empty folder
episode_0002 succeeds and writes the new data.json next to the stale
file instead of failing with DestinationExists. -/
theorem cut_merges_into_existing_destination :
    fsCut1.pathExists "task/episode_0002" = true
    ∧ fsCut1.getFile "task/episode_0002/old.bin" = some (.blob "stale")
    ∧ (runCut argsCut1 fsCut1).exit = none
    ∧ (runCut argsCut1 fsCut1).fs.getFile "task/episode_0002/data.json"
        = some (.json { cutDoc1 with data := [{ plainStep with idx := 0 }] })
    ∧ (runCut argsCut1 fsCut1).fs.getFile "task/episode_0002/old.bin"
        = some (.blob "stale") := by
  decide

/-- C1 (amended): filter_dataset2 and filter_dataset fail closed with
DestinationExists — any pre-existing destination root (in particular a
non-empty one), without --overwrite, aborts the run with the filesystem
untouched; cut_episode, by contrast, never raises DestinationExists at
all (it merges into an existing destination, see the counterexample). -/
theorem destination_fail_closed :
    (∀ (a : Filter2Args) (fs : FS),
      fs.hasDir a.src = true →
      filter2RangeBad a = false →
      fs.pathExists (dstOf a.src a.dstParent a.suffix) = true →
      a.overwrite = false →
      runFilter2 a fs = ⟨fs, [], some "DestinationExists"⟩)
    ∧ (∀ (a : FilterDSArgs) (fs : FS),
      fs.hasDir a.src = true →
      filterDSRangeBad a = false →
      fs.pathExists (dstOf a.src a.dstParent a.suffix) = true →
      a.overwrite = false →
      runFilterDS a fs = ⟨fs, [], some "DestinationExists"⟩)
    ∧ (∀ (a : CutArgs) (fs : FS), (runCut a fs).exit ≠ some "DestinationExists") := by
  refine ⟨?_, ?_, ?_⟩
  · intro a fs hsrc hrange hdst hov
    simp [runFilter2, hsrc, hrange, hdst, hov]
  · intro a fs hsrc hrange hdst hov
    simp [runFilterDS, hsrc, hrange, hdst, hov]
  · intro a fs
    simp only [runCut]
    split
    · exact show some "MissingMetadata" ≠ some "DestinationExists" by decide
    · exact show some "JSONDecodeError" ≠ some "DestinationExists" by decide
    · split
      · exact show some "EmptyEpisode" ≠ some "DestinationExists" by decide
      · split
        · rename_i m heq
          rw [show (⟨_, [], some m⟩ : RunOut).exit = some m from rfl,
            cutSlice_error_tag heq]
          decide
        · split
          · rename_i fs2 e heq
            rw [show (⟨fs2, [], some e⟩ : RunOut).exit = some e from rfl,
              copyAllRels_error_tag heq]
            decide
          · simp

/-- Witness for destination_fail_closed on a concrete tree whose
destination data/task_filtered already exists. -/
theorem destination_fail_closed_witness :
    runFilter2 argsF2Dst fsDst = ⟨fsDst, [], some "DestinationExists"⟩
    ∧ runFilterDS argsDSDst fsDst = ⟨fsDst, [], some "DestinationExists"⟩
    ∧ (runCut argsCut1 fsCut1).exit ≠ some "DestinationExists" :=
  ⟨destination_fail_closed.1 argsF2Dst fsDst (by decide) (by decide) (by decide)
      (by decide),
   destination_fail_closed.2.1 argsDSDst fsDst (by decide) (by decide) (by decide)
      (by decide),
   destination_fail_closed.2.2 argsCut1 fsCut1⟩

/-- C4 counterexample: when the single selected episode of
filter_dataset2 lacks its data.json, the run aborts with
MissingMetadata, but only after the destination root task/src_f —
absent before the run — has been created, so a new destination tree
does exist afterwards. -/
theorem filter2_missing_metadata_after_destination_created :
    (runFilter2 argsF4 fsF4).exit = some "MissingMetadata"
    ∧ fsF4.pathExists "task/src_f" = false
    ∧ (runFilter2 argsF4 fsF4).fs.hasDir "task/src_f" = true := by
  decide

/-- C4 (amended): a missing metadata document aborts the run fatally; in
cut_episode this happens before anything is created (the filesystem is
returned unchanged); in filter_dataset2 the loop aborts at the first
episode with missing metadata without writing anything for it, but by
then the destination root has already been created (and earlier episodes
already materialized), so the abort does not guarantee the absence of a
new destination tree. -/
theorem missing_metadata_aborts :
    (∀ (a : CutArgs) (fs : FS),
      fs.getFile (pjoin (pjoin a.taskDir (epName a.episode)) "data.json") = none →
      runCut a fs = ⟨fs, [], some "MissingMetadata"⟩)
    ∧ (∀ (src dst : String) (dropC dropG : List String) (i : Nat) (name : String)
        (rest : List (Nat × String)) (fs : FS) (ws : List String),
      fs.getFile (pjoin (pjoin src name) "data.json") = none →
      processSelected src dst dropC dropG ((i, name) :: rest) fs ws
        = ⟨fs, ws, some "MissingMetadata"⟩)
    ∧ (∀ (a : Filter2Args) (fs : FS),
      (runFilter2 a fs).exit = some "MissingMetadata" →
      (runFilter2 a fs).fs.hasDir (dstOf a.src a.dstParent a.suffix) = true) := by
  refine ⟨?_, ?_, ?_⟩
  · intro a fs h
    simp only [runCut, h]
  · intro src dst dropC dropG i name rest fs ws h
    simp only [processSelected, processEpisode, h]
  · intro a fs
    simp only [runFilter2]
    repeat' split
    all_goals intro h
    all_goals try simp at h
    all_goals exact processSelected_hasDir_mono _ _ _ (FS.mkdirParents_hasDir_self _ _)

/-- Witness for missing_metadata_aborts: cut aborts cleanly on fsCutMM;
the filter loop aborts at the metadata-less episode of fsF4; and the
whole fsF4 run ends with the destination root created. -/
theorem missing_metadata_aborts_witness :
    runCut argsCutMM fsCutMM = ⟨fsCutMM, [], some "MissingMetadata"⟩
    ∧ processSelected "task/src" "task/src_f" [] [] [(0, "episode_0000")] fsF4 []
        = ⟨fsF4, [], some "MissingMetadata"⟩
    ∧ (runFilter2 argsF4 fsF4).fs.hasDir (dstOf argsF4.src argsF4.dstParent
        argsF4.suffix) = true :=
  ⟨missing_metadata_aborts.1 argsCutMM fsCutMM (by decide),
   missing_metadata_aborts.2.1 "task/src" "task/src_f" [] [] 0 "episode_0000" []
     fsF4 [] (by decide),
   missing_metadata_aborts.2.2 argsF4 fsF4 (by decide)⟩

theorem rootFiles_mkdirParents (fs : FS) (p d : String) :
    rootFiles (fs.mkdirParents p) d = rootFiles fs d := by
  unfold rootFiles
  rw [FS.mkdirParents_files]

theorem processEpisode_success_eq
    (src dst : String) (dropC dropG : List String) (name : String)
    (fs : FS) (ws : List String) {dj : DataJson}
    (hmeta : fs.getFile (pjoin (pjoin src name) "data.json") = some (.json dj))
    (hdst : fs.pathExists (pjoin dst name) = false) :
    processEpisode src dst dropC dropG name fs ws
      = ⟨(copyRefs (pjoin src name) (pjoin dst name)
            (sortLe strLe (collect_referenced_files (filterDoc dropC dropG dj)))
            (((rootFiles (fs.mkdirParents (pjoin dst name)) (pjoin src name)).foldl
                (fun acc nc => acc.write (pjoin (pjoin dst name) nc.1) nc.2)
                (fs.mkdirParents (pjoin dst name))).write
              (pjoin (pjoin dst name) "data.json")
              (.json (filterDoc dropC dropG dj)))
            ws).1,
         (copyRefs (pjoin src name) (pjoin dst name)
            (sortLe strLe (collect_referenced_files (filterDoc dropC dropG dj)))
            (((rootFiles (fs.mkdirParents (pjoin dst name)) (pjoin src name)).foldl
                (fun acc nc => acc.write (pjoin (pjoin dst name) nc.1) nc.2)
                (fs.mkdirParents (pjoin dst name))).write
              (pjoin (pjoin dst name) "data.json")
              (.json (filterDoc dropC dropG dj)))
            ws).2,
         none⟩ := by
  simp only [processEpisode, hmeta]
  rw [if_neg (by simp [hdst])]

/-- C5 counterexample: cut_episode's materializer does not report any
warning for a missing referenced asset — it skips it silently, while the
run still continues and succeeds (so the claim's "reports a warning"
fails for the Cut materializer). -/
theorem cut_missing_asset_no_warning :
    "colors/a.jpg" ∈ collect_referenced_files docA
    ∧ fsA.getFile "task/episode_0001/colors/a.jpg" = none
    ∧ (runCut argsA fsA).exit = none
    ∧ (runCut argsA fsA).warnings = []
    ∧ (runCut argsA fsA).fs.getFile "task/episode_0002/data.json"
        = some (.json docA) := by
  decide

/-- C5 (amended): a referenced path missing at materialization time is
skipped and the materialization continues and succeeds, every remaining
referenced file is still copied, and the metadata document is still
written containing the missing path; filter_dataset2 reports a WARNING
line for each such path, while cut_episode skips silently, emitting no
warning at all. -/
theorem missing_asset_soft :
    (∀ (a : CutArgs) (fs : FS), (runCut a fs).warnings = [])
    ∧ (∀ (srcEp dstEp rel : String) (fs : FS),
        fs.getFile (pjoin srcEp rel) = none →
        copy_rel_file srcEp dstEp rel fs
          = fs.mkdirParents (parentOf (pjoin dstEp rel)))
    ∧ (∀ (src dst : String) (dropC dropG : List String) (name : String)
        (fs : FS) (ws : List String) (dj : DataJson),
      fs.getFile (pjoin (pjoin src name) "data.json") = some (.json dj) →
      fs.pathExists (pjoin dst name) = false →
      (∀ r ∈ collect_referenced_files (filterDoc dropC dropG dj),
        underPath (pjoin dst name) (pjoin (pjoin src name) r) = false) →
      (∀ r ∈ collect_referenced_files (filterDoc dropC dropG dj),
        ¬ (r = "data.json")
        ∧ ∀ nc ∈ rootFiles fs (pjoin src name), ¬ (r = nc.1)) →
      (processEpisode src dst dropC dropG name fs ws).exit = none
      ∧ (processEpisode src dst dropC dropG name fs ws).fs.getFile
          (pjoin (pjoin dst name) "data.json")
          = some (.json (filterDoc dropC dropG dj))
      ∧ (∀ rel ∈ collect_referenced_files (filterDoc dropC dropG dj),
          (∀ c, fs.getFile (pjoin (pjoin src name) rel) = some c →
            (processEpisode src dst dropC dropG name fs ws).fs.getFile
              (pjoin (pjoin dst name) rel) = some c)
          ∧ (fs.getFile (pjoin (pjoin src name) rel) = none →
            ("WARNING: referenced file missing, skipping: "
                ++ pjoin (pjoin src name) rel)
              ∈ (processEpisode src dst dropC dropG name fs ws).warnings
            ∧ (processEpisode src dst dropC dropG name fs ws).fs.getFile
                (pjoin (pjoin dst name) rel)
              = fs.getFile (pjoin (pjoin dst name) rel)))) := by
  refine ⟨?_, ?_, ?_⟩
  · intro a fs
    simp only [runCut]
    split
    · rfl
    · rfl
    · split
      · rfl
      · split
        · rfl
        · split
          · rfl
          · rfl
  · intro srcEp dstEp rel fs h
    simp only [copy_rel_file]
    rw [show (fs.mkdirParents (parentOf (pjoin dstEp rel))).getFile (pjoin srcEp rel)
        = fs.getFile (pjoin srcEp rel) from FS.mkdirParents_getFile _ _ _, h]
  · intro src dst dropC dropG name fs ws dj hmeta hdst hsep hnames
    have hpe := processEpisode_success_eq src dst dropC dropG name fs ws hmeta hdst
    have hndC : (collect_referenced_files (filterDoc dropC dropG dj)).Nodup := by
      unfold collect_referenced_files
      exact List.nodup_dedup _
    have hnd := sortLe_nodup strLe _ hndC
    have hsepL : ∀ r ∈ sortLe strLe (collect_referenced_files (filterDoc dropC dropG dj)),
        underPath (pjoin dst name) (pjoin (pjoin src name) r) = false :=
      fun r hr => hsep r ((mem_sortLe _ _ _).mp hr)
    have hnamesL : ∀ r ∈ sortLe strLe (collect_referenced_files (filterDoc dropC dropG dj)),
        ¬ (r = "data.json")
        ∧ ∀ nc ∈ rootFiles fs (pjoin src name), ¬ (r = nc.1) :=
      fun r hr => hnames r ((mem_sortLe _ _ _).mp hr)
    have hread : ∀ rel ∈ sortLe strLe (collect_referenced_files (filterDoc dropC dropG dj)),
        ((((rootFiles (fs.mkdirParents (pjoin dst name)) (pjoin src name)).foldl
            (fun acc nc => acc.write (pjoin (pjoin dst name) nc.1) nc.2)
            (fs.mkdirParents (pjoin dst name))).write
          (pjoin (pjoin dst name) "data.json")
          (.json (filterDoc dropC dropG dj))).getFile (pjoin (pjoin src name) rel))
          = fs.getFile (pjoin (pjoin src name) rel) := by
      intro rel hrel
      have hu := hsepL rel hrel
      rw [FS.write_getFile_ne _ _
          (ne_of_under_not_under (underPath_pjoin (pjoin dst name) "data.json") hu),
        foldl_write_getFile_not_written _ _
          (fun nc _ => ne_of_under_not_under (underPath_pjoin (pjoin dst name) nc.1) hu),
        FS.mkdirParents_getFile]
    have hkeep : ∀ rel ∈ sortLe strLe (collect_referenced_files (filterDoc dropC dropG dj)),
        ((((rootFiles (fs.mkdirParents (pjoin dst name)) (pjoin src name)).foldl
            (fun acc nc => acc.write (pjoin (pjoin dst name) nc.1) nc.2)
            (fs.mkdirParents (pjoin dst name))).write
          (pjoin (pjoin dst name) "data.json")
          (.json (filterDoc dropC dropG dj))).getFile (pjoin (pjoin dst name) rel))
          = fs.getFile (pjoin (pjoin dst name) rel) := by
      intro rel hrel
      rw [FS.write_getFile_ne _ _
          (fun heq => (hnamesL rel hrel).1 (pjoin_right_inj heq).symm),
        foldl_write_getFile_not_written _ _ ?_,
        FS.mkdirParents_getFile]
      intro nc hnc heq
      rw [rootFiles_mkdirParents] at hnc
      exact (hnamesL rel hrel).2 nc hnc (pjoin_right_inj heq).symm
    refine ⟨?_, ?_, ?_⟩
    · rw [hpe]
    · rw [hpe]
      refine (copyRefs_getFile_not_written _
          (fun rel hrel heq => (hnamesL rel hrel).1 (pjoin_right_inj heq)) _ _).trans ?_
      exact FS.write_getFile_self _ _ _
    · intro rel hrelmem
      have hrelL : rel ∈ sortLe strLe (collect_referenced_files (filterDoc dropC dropG dj)) :=
        (mem_sortLe _ _ _).mpr hrelmem
      constructor
      · intro c hc
        rw [hpe]
        exact copyRefs_copies _ hnd hsepL hrelL _ ws
          (by rw [hread rel hrelL]; exact hc)
      · intro h0
        have hmiss := copyRefs_missing _ hnd hsepL hrelL
          ((((rootFiles (fs.mkdirParents (pjoin dst name)) (pjoin src name)).foldl
              (fun acc nc => acc.write (pjoin (pjoin dst name) nc.1) nc.2)
              (fs.mkdirParents (pjoin dst name))).write
            (pjoin (pjoin dst name) "data.json")
            (.json (filterDoc dropC dropG dj)))) ws
          (by rw [hread rel hrelL]; exact h0)
        rw [hpe]
        exact ⟨hmiss.1, hmiss.2.trans (hkeep rel hrelL)⟩

/-- Witness for missing_asset_soft: a cut run with no warnings; a silent
copy_rel_file skip; and a filter_dataset2 episode with one present and
one missing asset that succeeds, copies the present file, writes the
metadata, and warns about the missing one. -/
theorem missing_asset_soft_witness :
    (runCut argsA fsA).warnings = []
    ∧ copy_rel_file "s" "d" "colors/x.jpg" fsEmpty
        = fsEmpty.mkdirParents (parentOf (pjoin "d" "colors/x.jpg"))
    ∧ (processEpisode "root/src" "root/dst" [] [] "episode_0000" fsB []).exit = none
    ∧ (processEpisode "root/src" "root/dst" [] [] "episode_0000" fsB []).fs.getFile
        (pjoin (pjoin "root/dst" "episode_0000") "data.json")
        = some (.json (filterDoc [] [] docB))
    ∧ (processEpisode "root/src" "root/dst" [] [] "episode_0000" fsB []).fs.getFile
        (pjoin (pjoin "root/dst" "episode_0000") "colors/p.jpg")
        = some (.blob "P")
    ∧ ("WARNING: referenced file missing, skipping: "
          ++ pjoin (pjoin "root/src" "episode_0000") "colors/m.jpg")
        ∈ (processEpisode "root/src" "root/dst" [] [] "episode_0000" fsB []).warnings := by
  have happ := missing_asset_soft.2.2 "root/src" "root/dst" [] [] "episode_0000"
    fsB [] docB (by decide) (by decide) (by decide) (by decide)
  refine ⟨missing_asset_soft.1 argsA fsA,
    missing_asset_soft.2.1 "s" "d" "colors/x.jpg" fsEmpty (by decide),
    happ.1, happ.2.1, ?_, ?_⟩
  · exact (happ.2.2 "colors/p.jpg" (by decide)).1 (.blob "P") (by decide)
  · exact ((happ.2.2 "colors/m.jpg" (by decide)).2 (by decide)).1
